import Mathlib

/-!
# Verification of `src/node_buffer.cc` (node `SlowBuffer`)

A shallow embedding of the byte-buffer operations of `src/node_buffer.cc`:
`base64_decoded_size`, `ByteLength`, the four slices (`SLICE_ARGS`,
`Buffer::Base64Slice` in full), the four writes (`Buffer::Base64Write` in full) and
`Buffer::Copy`, followed by theorems about them.

Conventions of the embedding.

* A buffer (`data_`, `length_`) is a `List Nat` of byte values; `length_` is the
  length of the list.
* A C string (`String::AsciiValue`, `String::Utf8Value`, the `out` array handed to
  `String::New`) is a `List Nat` of character codes.
* `size_t` values are natural numbers, reduced modulo `2 ^ 64` where the source can
  wrap (`size--`, conversion of an `int32_t`).
* `int32_t` / `ssize_t` arguments are integers (`Int`).
* A thrown exception is `Except.error` carrying the message of the source.
* The text codec of V8 (`Encode`, `String::New`, `WriteUtf8`, `WriteAscii`,
  `DecodeWrite`) is outside the file: the operations that call it take it as a
  parameter.
-/

namespace node

/-! ## Constants and tables -/

deriving instance DecidableEq for Except

/-- Character codes of a string literal (used to write tables and test vectors). -/
def chars (s : String) : List Nat := s.toList.map Char.toNat

/-- The code of the pad character `'='`. -/
def PAD : Nat := 61

/-- Modulus of `size_t` arithmetic (64-bit). -/
def SIZE_MOD : Nat := 18446744073709551616

/-- The statement `size--` on a `size_t`: zero wraps to `SIZE_MAX`. -/
def size_dec (size : Nat) : Nat := if size = 0 then SIZE_MOD - 1 else size - 1

/-- Conversion of a signed integer to `size_t`. -/
def to_size_t (v : Int) : Nat := (v % (SIZE_MOD : Int)).toNat

/-- Table `base64_table` (lines 218-220). -/
def base64_table : List Nat :=
  chars "ABCDEFGHIJKLMNOPQRSTUVWXYZabcdefghijklmnopqrstuvwxyz0123456789+/"

/-- Table `unbase64_table` (lines 221-230), 128 entries. -/
def unbase64_table : List Int :=
  [-1,-1,-1,-1,-1,-1,-1,-1,-1,-1,-1,-1,-1,-1,-1,-1
  ,-1,-1,-1,-1,-1,-1,-1,-1,-1,-1,-1,-1,-1,-1,-1,-1
  ,-1,-1,-1,-1,-1,-1,-1,-1,-1,-1,-1,62,-1,-1,-1,63
  ,52,53,54,55,56,57,58,59,60,61,-1,-1,-1,-1,-1,-1
  ,-1, 0, 1, 2, 3, 4, 5, 6, 7, 8, 9,10,11,12,13,14
  ,15,16,17,18,19,20,21,22,23,24,25,-1,-1,-1,-1,-1
  ,-1,26,27,28,29,30,31,32,33,34,35,36,37,38,39,40
  ,41,42,43,44,45,46,47,48,49,50,51,-1,-1,-1,-1,-1
  ]

/-- Conversion of an `int` to the 8-bit pattern of a `char` (`a = unbase64_table[..]`). -/
def to_char (v : Int) : Nat := (v % 256).toNat

/-- The read `unbase64_table[ch]` assigned to a `char`; `none` when `ch` is not an
index of the 128-entry table (the source then reads outside the array). -/
def unbase64 (ch : Nat) : Option Nat := (unbase64_table.get? ch).map to_char

/-! ## `base64_decoded_size` and `ByteLength` (lines 46-82) -/

/-- Function `base64_decoded_size(src, size)` (lines 46-68). `end[-1]` and `end[-2]`
are `src[size - 1]` and `src[size - 2]`; they are read only when the size computed so
far is positive. -/
def base64_decoded_size (src : List Nat) (size : Nat) : Nat :=
  let remainder := size % 4
  let size1 := (size / 4) * 3
  let size2 :=
    if remainder ≠ 0 then
      if size1 = 0 ∧ remainder = 1 then 0
      else size1 + (1 + (if remainder = 3 then 1 else 0))
    else size1
  if size2 > 0 then
    let size3 := if src.getD (size - 1) 0 = PAD then size_dec size2 else size2
    let size4 := if src.getD (size - 2) 0 = PAD then size_dec size3 else size3
    size4
  else size2

/-- The enumeration `encoding` restricted to the values the buffer uses. -/
inductive encoding
  | ASCII
  | UTF8
  | BASE64
  | BINARY
  deriving DecidableEq, Repr

/-- A V8 string as far as `ByteLength` looks at it: its UTF-8 bytes
(`String::Utf8Value`, whose length is also `Utf8Length()`) and its `Length()`. -/
structure V8String where
  utf8 : List Nat
  length : Nat

/-- Function `ByteLength(string, enc)` (lines 71-82). -/
def ByteLength (string : V8String) (enc : encoding) : Nat :=
  if enc = encoding.UTF8 then string.utf8.length
  else if enc = encoding.BASE64 then base64_decoded_size string.utf8 string.utf8.length
  else string.length

/-! ## `SLICE_ARGS` and `Buffer::Base64Slice` (lines 19-37, 233-302) -/

/-- The `while (i < end)` loop of `Buffer::Base64Slice` (lines 248-297). The state is
the read index `i` and the characters stored so far in `out` (so `j` is the length of
`out`, and `out[j++] = x` appends `x`). Bytes are read into `uint8_t bitbuf[3]`,
hence modulo 256. The first argument bounds the number of iterations; every
iteration advances `i` by 3, so `end - i` iterations always suffice
(`Base64Slice_loop_fuel`). -/
def Base64Slice_loop (data : List Nat) (end_ : Nat) : Nat → Nat → List Nat → List Nat
  | 0, _, out => out
  | fuel + 1, i, out =>
    if i < end_ then
      let bitbuf0 := data.getD i 0 % 256
      let i1 := i + 1
      let bitbuf1 := if i1 < end_ then data.getD i1 0 % 256 else 0
      let b1_oob := decide (¬ i1 < end_)
      let i2 := i1 + 1
      let bitbuf2 := if i2 < end_ then data.getD i2 0 % 256 else 0
      let b2_oob := decide (¬ i2 < end_)
      let i3 := i2 + 1
      let out1 := out ++ [base64_table.getD (bitbuf0 >>> 2) 0]
      let out2 :=
        out1 ++ [base64_table.getD (((bitbuf0 &&& 0x03) <<< 4) ||| (bitbuf1 >>> 4)) 0]
      let out3 :=
        if b1_oob then out2 ++ [PAD]
        else out2 ++ [base64_table.getD (((bitbuf1 &&& 0x0F) <<< 2) ||| (bitbuf2 >>> 6)) 0]
      let out4 :=
        if b2_oob then out3 ++ [PAD]
        else out3 ++ [base64_table.getD (bitbuf2 &&& 0x3F) 0]
      Base64Slice_loop data end_ fuel i3 out4
    else out

/-- The `while (src < srcEnd)` loop of `Buffer::Base64Write` (lines 479-495) on the
characters from `src` up to `srcEnd`. The result is the number of characters consumed
(`src++`) and the bytes stored through `*dst++`, in order; `none` when a character is
not an index of `unbase64_table`. A stored byte is the low 8 bits of the expression of
the source. -/
def Base64Write_loop : List Nat → Option (Nat × List Nat)
  | [] => some (0, [])
  | x0 :: r0 =>
    if x0 = PAD then some (0, [])
    else
      match unbase64 x0 with
      | none => none
      | some a =>
        match r0 with
        | [] => some (1, [])
        | x1 :: r1 =>
          if x1 = PAD then some (1, [])
          else
            match unbase64 x1 with
            | none => none
            | some b =>
              let o0 := ((a <<< 2) ||| ((b &&& 0x30) >>> 4)) % 256
              match r1 with
              | [] => some (2, [o0])
              | x2 :: r2 =>
                if x2 = PAD then some (2, [o0])
                else
                  match unbase64 x2 with
                  | none => none
                  | some c =>
                    let o1 := (((b &&& 0x0F) <<< 4) ||| ((c &&& 0x3C) >>> 2)) % 256
                    match r2 with
                    | [] => some (3, [o0, o1])
                    | x3 :: r3 =>
                      if x3 = PAD then some (3, [o0, o1])
                      else
                        match unbase64 x3 with
                        | none => none
                        | some d =>
                          let o2 := (((c &&& 0x03) <<< 6) ||| (d &&& 0x3F)) % 256
                          match Base64Write_loop r3 with
                          | none => none
                          | some (k, rest) => some (k + 4, o0 :: o1 :: o2 :: rest)

/-- Bytes `stored` written at `data + offset`, `data + offset + 1`, ... -/
def store_bytes (data : List Nat) (offset : Nat) (stored : List Nat) : List Nat :=
  data.take offset ++ stored ++ data.drop (offset + stored.length)

/-- What a call of `Buffer::Base64Write` does. -/
inductive Base64WriteOutcome
  /-- An exception with this message was thrown; nothing was stored. -/
  | threw (msg : String)
  /-- The call returned `size`; the loop stored the bytes `stored`, all of them
  inside the buffer, whose content is now `data`. -/
  | returned (size : Nat) (stored : List Nat) (data : List Nat)
  /-- The size check passed (the call would return `size`) and the loop stored the
  bytes `stored`, the last of them at or beyond `data_ + length_`. -/
  | overrun (size : Nat) (stored : List Nat)
  /-- The loop indexed `unbase64_table` outside its 128 entries. -/
  | bad_index
  deriving DecidableEq, Repr

/-- Method `Buffer::Base64Write` (lines 437-498) for a string argument whose
`String::AsciiValue` is `s`, on a buffer holding `data`. The third argument
(`maxLength`) is never read by the source. -/
def Base64Write (data : List Nat) (s : List Nat) (offset_arg : Int)
    (_max_length : Option Int) : Base64WriteOutcome :=
  let offset := to_size_t offset_arg
  if offset = 0 ∧ data.length = 0 then Base64WriteOutcome.returned 0 [] data
  else if offset ≥ data.length then Base64WriteOutcome.threw "Offset is out of bounds"
  else
    let size := base64_decoded_size s s.length
    if size > data.length - offset then Base64WriteOutcome.threw "Buffer too small"
    else
      match Base64Write_loop s with
      | none => Base64WriteOutcome.bad_index
      | some (_, stored) =>
        if offset + stored.length ≤ data.length then
          Base64WriteOutcome.returned size stored (store_bytes data offset stored)
        else Base64WriteOutcome.overrun size stored

/-! ## `Buffer::Copy` (lines 306-359) -/

/-- The call `memmove(dst + dst_off, src + src_off, n)`: the `n` bytes read from the
source are stored at the destination as if through a temporary array, so the result
is right also when the two ranges overlap. The result is the destination buffer. -/
def memmove (dst : List Nat) (dst_off : Nat) (src : List Nat) (src_off n : Nat) : List Nat :=
  store_bytes dst dst_off ((src.drop src_off).take n)

/-- Method `Buffer::Copy` (lines 306-359): `source.copy(target, targetStart,
sourceStart, sourceEnd)` with `target` a buffer. `source_end_arg` is `none` when the
fourth argument is not an `Int32` (then `source->length()` is used). The result is
the exception thrown or the integer returned, and the content of the target
afterwards. When source and target are the same buffer, both are the same list and the
second component is the new content of that buffer. -/
def Copy (source target : List Nat) (target_start source_start : Int)
    (source_end_arg : Option Int) : Except String Nat × List Nat :=
  let source_end : Int :=
    match source_end_arg with
    | some v => v
    | none => (source.length : Int)
  if source_end < source_start then (Except.error "sourceEnd < sourceStart", target)
  else if source_end = source_start then (Except.ok 0, target)
  else if target_start < 0 ∨ target_start ≥ (target.length : Int) then
    (Except.error "targetStart out of bounds", target)
  else if source_start < 0 ∨ source_start ≥ (source.length : Int) then
    (Except.error "sourceStart out of bounds", target)
  else if source_end < 0 ∨ source_end > (source.length : Int) then
    (Except.error "sourceEnd out of bounds", target)
  else
    let to_copy : Int :=
      min (min (source_end - source_start) ((target.length : Int) - target_start))
        ((source.length : Int) - source_start)
    (Except.ok to_copy.toNat,
      memmove target target_start.toNat source source_start.toNat to_copy.toNat)

/-! ## The slices and writes that delegate to the text codec -/

/-- The difference `a - b` of two `size_t` values: it wraps when `b > a`. -/
def size_sub (a b : Nat) : Nat := if b ≤ a then a - b else SIZE_MOD - (b - a)

/-- What a call of `Utf8Write`, `AsciiWrite` or `BinaryWrite` does. -/
inductive WriteOutcome
  /-- An exception with this message was thrown; nothing was stored. -/
  | threw (msg : String)
  /-- The call returned `written`; the bytes the codec stored are all inside the
  buffer, whose content is now `data`. -/
  | returned (written : Nat) (data : List Nat)
  /-- The codec stored a byte at or beyond `data_ + length_`. -/
  | overrun
  deriving DecidableEq, Repr

/-- Method `Buffer::Utf8Write` (lines 363-400). `offset` is `args[1]->Uint32Value()`
and `max_length_arg` is `args[2]` (`none` when undefined). `WriteUtf8 s capacity` is
the external `s->WriteUtf8(p, capacity, ...)`: the value it returns and the bytes it
stores from `p` on. -/
def Utf8Write (WriteUtf8 : V8String → Nat → Nat × List Nat) (data : List Nat)
    (s : V8String) (offset : Nat) (max_length_arg : Option Nat) : WriteOutcome :=
  if s.utf8.length > 0 ∧ offset ≥ data.length then
    WriteOutcome.threw "Offset is out of bounds"
  else
    let max_length0 :=
      match max_length_arg with
      | none => size_sub data.length offset
      | some v => v
    let max_length := min (size_sub data.length offset) max_length0
    let r := WriteUtf8 s max_length
    if offset + r.2.length ≤ data.length then
      let after := store_bytes data offset r.2
      let written :=
        if r.1 > 0 ∧ after.getD (offset + (r.1 - 1)) 0 = 0 then r.1 - 1 else r.1
      WriteOutcome.returned written after
    else WriteOutcome.overrun

/-- Method `Buffer::AsciiWrite` (lines 404-434). `offset_arg` is
`args[1]->Int32Value()`, converted to `size_t`. `WriteAscii s length` is the external
`s->WriteAscii(p, 0, length, ...)`: the value it returns and the bytes it stores. -/
def AsciiWrite (WriteAscii : V8String → Nat → Nat × List Nat) (data : List Nat)
    (s : V8String) (offset_arg : Int) (max_length_arg : Option Nat) : WriteOutcome :=
  let offset := to_size_t offset_arg
  if s.length > 0 ∧ offset ≥ data.length then
    WriteOutcome.threw "Offset is out of bounds"
  else
    let max_length0 :=
      match max_length_arg with
      | none => size_sub data.length offset
      | some v => v
    let max_length := min s.length (min (size_sub data.length offset) max_length0)
    let r := WriteAscii s max_length
    if offset + r.2.length ≤ data.length then
      WriteOutcome.returned r.1 (store_bytes data offset r.2)
    else WriteOutcome.overrun

/-- Method `Buffer::BinaryWrite` (lines 501-526). `DecodeWrite s towrite` is the
external `DecodeWrite(p, towrite, s, BINARY)`: the value it returns and the bytes it
stores. -/
def BinaryWrite (DecodeWrite : V8String → Nat → Nat × List Nat) (data : List Nat)
    (s : V8String) (offset_arg : Int) : WriteOutcome :=
  let offset := to_size_t offset_arg
  if s.length > 0 ∧ offset ≥ data.length then
    WriteOutcome.threw "Offset is out of bounds"
  else
    let towrite := min s.length (size_sub data.length offset)
    let r := DecodeWrite s towrite
    if offset + r.2.length ≤ data.length then
      WriteOutcome.returned r.1 (store_bytes data offset r.2)
    else WriteOutcome.overrun

/-! ## The encoder loop with its assertions -/

/-- The characters the loop of `Buffer::Base64Slice` stores for the bytes it has
still to read, group by group: a proof device, related to the loop by
`Base64Slice_loop_eq`. -/
def encode_groups : List Nat → List Nat
  | [] => []
  | [b0] =>
    [base64_table.getD ((b0 % 256) >>> 2) 0,
     base64_table.getD ((((b0 % 256) &&& 0x03) <<< 4) ||| (0 >>> 4)) 0,
     PAD, PAD]
  | [b0, b1] =>
    [base64_table.getD ((b0 % 256) >>> 2) 0,
     base64_table.getD ((((b0 % 256) &&& 0x03) <<< 4) ||| ((b1 % 256) >>> 4)) 0,
     base64_table.getD ((((b1 % 256) &&& 0x0F) <<< 2) ||| (0 >>> 6)) 0,
     PAD]
  | b0 :: b1 :: b2 :: rest =>
    base64_table.getD ((b0 % 256) >>> 2) 0 ::
    base64_table.getD ((((b0 % 256) &&& 0x03) <<< 4) ||| ((b1 % 256) >>> 4)) 0 ::
    base64_table.getD ((((b1 % 256) &&& 0x0F) <<< 2) ||| ((b2 % 256) >>> 6)) 0 ::
    base64_table.getD ((b2 % 256) &&& 0x3F) 0 :: encode_groups rest

/-- The number of bytes stored for `k` characters consumed: 3 per full group, plus 1
for two left over, plus 2 for three left over. -/
def stored_count (k : Nat) : Nat :=
  3 * (k / 4) + (if k % 4 = 2 then 1 else if k % 4 = 3 then 2 else 0)

/-! ## Decoded size -/

/-- Claim C6. `byteLength` Base64 vectors: `base64_decoded_size` (and `ByteLength`
with the Base64 encoding) gives 0 for the empty string, 1 for "QQ==" and 1 for "QQ". -/
theorem C6_byteLength_vectors :
    base64_decoded_size (chars "") 0 = 0 ∧
    base64_decoded_size (chars "QQ==") 4 = 1 ∧
    base64_decoded_size (chars "QQ") 2 = 1 ∧
    ByteLength ⟨chars "", 0⟩ encoding.BASE64 = 0 ∧
    ByteLength ⟨chars "QQ==", 4⟩ encoding.BASE64 = 1 ∧
    ByteLength ⟨chars "QQ", 2⟩ encoding.BASE64 = 1 := by
  decide

/-- A character list without `'='` has no `'='` at any index (the default of an
index outside the list is 0). -/
theorem getD_ne_PAD (l : List Nat) (h : ∀ c ∈ l, c ≠ PAD) (i : Nat) : l.getD i 0 ≠ PAD := by
  by_cases hi : i < l.length
  · rw [List.getD_eq_getElem l 0 hi]
    exact h _ (List.getElem_mem hi)
  · rw [List.getD_eq_default l 0 (by omega)]
    decide

/-- Without `'='` among the last two characters, `base64_decoded_size` is the value
computed before the padding check. -/
theorem base64_decoded_size_unpadded (src : List Nat) (size : Nat)
    (h1 : src.getD (size - 1) 0 ≠ PAD) (h2 : src.getD (size - 2) 0 ≠ PAD) :
    base64_decoded_size src size =
      if size % 4 ≠ 0 then
        if size / 4 * 3 = 0 ∧ size % 4 = 1 then 0
        else size / 4 * 3 + (1 + (if size % 4 = 3 then 1 else 0))
      else size / 4 * 3 := by
  unfold base64_decoded_size
  simp only [h1, h2, if_false, ite_self]

/-- Claim C5, as the code has it. For a text of `size` characters none of which is
`'='`, `ByteLength(text, BASE64)` is `floor(size/4)*3`, plus 1 when `size mod 4 = 2`,
plus 2 when `size mod 4 = 3`, plus 1 when `size mod 4 = 1` and `size > 1`, and plus
nothing when `size mod 4 = 0` or `size = 1`. -/
theorem C5_decoded_size_unpadded (text : List Nat) (len : Nat)
    (h : ∀ c ∈ text, c ≠ PAD) :
    ByteLength ⟨text, len⟩ encoding.BASE64 =
      text.length / 4 * 3 +
        (if text.length % 4 = 2 then 1
         else if text.length % 4 = 3 then 2
         else if text.length % 4 = 1 ∧ text.length > 1 then 1
         else 0) := by
  have h1 := getD_ne_PAD text h (text.length - 1)
  have h2 := getD_ne_PAD text h (text.length - 2)
  have hB : ByteLength ⟨text, len⟩ encoding.BASE64 =
      base64_decoded_size text text.length := by
    simp [ByteLength]
  rw [hB, base64_decoded_size_unpadded text _ h1 h2]
  split_ifs <;> omega

/-- Instance of `C5_decoded_size_unpadded`: the five characters "AAAAA". -/
theorem C5_decoded_size_unpadded_witness :
    ByteLength ⟨chars "AAAAA", 5⟩ encoding.BASE64 = 4 := by
  have h := C5_decoded_size_unpadded (chars "AAAAA") 5 (by decide)
  simpa using h

/-- Claim C5 as stated fails: "AAAAA" has 5 characters, none of them `'='`, and
`5 mod 4 = 1`, yet its decoded size is 4, not `floor(5/4)*3 = 3`. -/
theorem C5_counterexample :
    ¬ (∀ text : List Nat, (∀ c ∈ text, c ≠ PAD) →
        ByteLength ⟨text, text.length⟩ encoding.BASE64 =
          text.length / 4 * 3 +
            (if text.length % 4 = 2 then 1
             else if text.length % 4 = 3 then 2
             else 0)) := by
  intro h
  have h5 := h (chars "AAAAA") (by decide)
  revert h5
  decide

/-! ## `Buffer::Copy` -/

/-- The value of `source_end` in `Buffer::Copy`: the fourth argument, or
`source->length()` when it is not an `Int32`. -/
theorem Copy_unfold (source target : List Nat) (ts ss : Int) (se_arg : Option Int) :
    Copy source target ts ss se_arg =
      (let se : Int := se_arg.getD (source.length : Int)
       if se < ss then (Except.error "sourceEnd < sourceStart", target)
       else if se = ss then (Except.ok 0, target)
       else if ts < 0 ∨ ts ≥ (target.length : Int) then
         (Except.error "targetStart out of bounds", target)
       else if ss < 0 ∨ ss ≥ (source.length : Int) then
         (Except.error "sourceStart out of bounds", target)
       else if se < 0 ∨ se > (source.length : Int) then
         (Except.error "sourceEnd out of bounds", target)
       else
         (Except.ok (min (min (se - ss) ((target.length : Int) - ts))
             ((source.length : Int) - ss)).toNat,
           memmove target ts.toNat source ss.toNat
             (min (min (se - ss) ((target.length : Int) - ts))
               ((source.length : Int) - ss)).toNat)) := by
  cases se_arg <;> rfl

/-- Claim C7. Copy count, with `sourceEnd` being `source.length` when omitted and
`sourceEnd > sourceStart`: when `targetStart` is in `[0, target.length)`,
`sourceStart` is in `[0, source.length)` and `sourceEnd ≤ source.length`, `Copy`
returns a count; and every count `c` that `Copy` returns is
`min(sourceEnd - sourceStart, target.length - targetStart,
source.length - sourceStart)`. -/
theorem C7_copy_count (source target : List Nat) (ts ss : Int) (se_arg : Option Int)
    (hlt : ss < se_arg.getD (source.length : Int)) :
    ((0 ≤ ts ∧ ts < (target.length : Int)) → (0 ≤ ss ∧ ss < (source.length : Int)) →
      se_arg.getD (source.length : Int) ≤ (source.length : Int) →
      ∃ c, (Copy source target ts ss se_arg).1 = Except.ok c) ∧
    (∀ c : Nat, (Copy source target ts ss se_arg).1 = Except.ok c →
      (c : Int) =
        min (min (se_arg.getD (source.length : Int) - ss) ((target.length : Int) - ts))
          ((source.length : Int) - ss)) := by
  rw [Copy_unfold]
  simp only
  constructor
  · intro h1 h2 h3
    rw [if_neg (by omega), if_neg (by omega), if_neg (by omega), if_neg (by omega),
      if_neg (by omega)]
    exact ⟨_, rfl⟩
  · intro c hok
    split_ifs at hok with h1 h2 h3 h4 h5
    · omega
    · simp only [Except.ok.injEq] at hok
      rw [← hok]
      apply Int.toNat_of_nonneg
      simp only [le_min_iff]
      omega

/-- Instance of `C7_copy_count`: 5 bytes requested from offset 2 of a 10-byte source
into a 4-byte target at offset 1 copies 3 bytes. -/
theorem C7_copy_count_witness :
    (Copy [0,1,2,3,4,5,6,7,8,9] [0,0,0,0] 1 2 (some 7)).1 = Except.ok 3 ∧
    ((3 : Nat) : Int) =
      min (min ((7 : Int) - 2) (((4 : Nat) : Int) - 1)) (((10 : Nat) : Int) - 2) :=
  ⟨by decide,
    (C7_copy_count [0,1,2,3,4,5,6,7,8,9] [0,0,0,0] 1 2 (some 7) (by decide)).2 3 (by decide)⟩

/-- Claim C9. Copy zero-length early exit: when `sourceStart == sourceEnd` (given
explicitly, or `sourceEnd` omitted and `sourceStart == source.length`), `Copy`
succeeds, reports 0 bytes copied and leaves the target unchanged, whatever the values
of `targetStart` and `sourceStart` (no bound is enforced). -/
theorem C9_copy_zero_length (source target : List Nat) (ts ss : Int) :
    Copy source target ts ss (some ss) = (Except.ok 0, target) ∧
    Copy source target ts (source.length : Int) none = (Except.ok 0, target) := by
  constructor <;> simp [Copy_unfold]

/-- Claim C10. Copy rejection conditions, with `sourceEnd` being `source.length`
when omitted: `Copy` fails whenever `sourceEnd < sourceStart`; when
`sourceEnd > sourceStart`, `Copy` fails if and only if `targetStart` is outside
`[0, target.length)`, or `sourceStart` is outside `[0, source.length)`, or `sourceEnd`
exceeds `source.length`; and on every failure the target is unchanged. -/
theorem C10_copy_rejection (source target : List Nat) (ts ss : Int) (se_arg : Option Int) :
    (se_arg.getD (source.length : Int) < ss →
      ∃ msg, (Copy source target ts ss se_arg).1 = Except.error msg) ∧
    (ss < se_arg.getD (source.length : Int) →
      ((∃ msg, (Copy source target ts ss se_arg).1 = Except.error msg) ↔
        ((ts < 0 ∨ (target.length : Int) ≤ ts) ∨ (ss < 0 ∨ (source.length : Int) ≤ ss) ∨
          (source.length : Int) < se_arg.getD (source.length : Int)))) ∧
    (∀ msg, (Copy source target ts ss se_arg).1 = Except.error msg →
      (Copy source target ts ss se_arg).2 = target) := by
  rw [Copy_unfold]
  simp only
  refine ⟨?_, ?_, ?_⟩
  · intro h
    rw [if_pos h]
    exact ⟨_, rfl⟩
  · intro h
    rw [if_neg (by omega), if_neg (by omega)]
    split_ifs with h3 h4 h5
    · simp only [Except.error.injEq, exists_eq', true_iff]
      omega
    · simp only [Except.error.injEq, exists_eq', true_iff]
      omega
    · simp only [Except.error.injEq, exists_eq', true_iff]
      omega
    · simp only [reduceCtorEq, exists_false, false_iff]
      omega
  · intro msg
    split_ifs <;> simp

/-- Instance of `C10_copy_rejection`: `sourceEnd < sourceStart` is rejected, a
`targetStart` equal to `target.length` is rejected, and the target is unchanged. -/
theorem C10_copy_rejection_witness :
    (∃ msg, (Copy [1,2,3] [4,5] 0 2 (some 1)).1 = Except.error msg) ∧
    (∃ msg, (Copy [1,2,3] [4,5] 2 0 (some 1)).1 = Except.error msg) ∧
    (Copy [1,2,3] [4,5] 2 0 (some 1)).2 = [4,5] :=
  ⟨(C10_copy_rejection [1,2,3] [4,5] 0 2 (some 1)).1 (by decide),
   ((C10_copy_rejection [1,2,3] [4,5] 2 0 (some 1)).2.1 (by decide)).2 (by decide),
   (C10_copy_rejection [1,2,3] [4,5] 2 0 (some 1)).2.2 "targetStart out of bounds" (by decide)⟩

/-- Storing inside the buffer keeps its length. -/
theorem store_bytes_length (data : List Nat) (offset : Nat) (stored : List Nat)
    (h : offset + stored.length ≤ data.length) :
    (store_bytes data offset stored).length = data.length := by
  simp only [store_bytes, List.length_append, List.length_take, List.length_drop]
  omega

/-- A byte below the stored range is unchanged. -/
theorem store_bytes_get_before (data : List Nat) (offset : Nat) (stored : List Nat)
    (h : offset + stored.length ≤ data.length) (j : Nat) (hj : j < offset) :
    (store_bytes data offset stored)[j]? = data[j]? := by
  simp only [store_bytes, List.append_assoc]
  rw [List.getElem?_append_left (by simp only [List.length_take]; omega)]
  rw [List.getElem?_take_of_lt hj]

/-- A byte of the stored range is the stored one. -/
theorem store_bytes_get_inside (data : List Nat) (offset : Nat) (stored : List Nat)
    (h : offset + stored.length ≤ data.length) (i : Nat) :
    (store_bytes data offset stored)[offset + i]? =
      if i < stored.length then stored[i]? else data[offset + i]? := by
  have hlen : (data.take offset).length = offset := by
    simp only [List.length_take]; omega
  simp only [store_bytes, List.append_assoc]
  rw [List.getElem?_append_right (by omega), hlen, Nat.add_sub_cancel_left]
  split_ifs with hi
  · rw [List.getElem?_append_left hi]
  · rw [List.getElem?_append_right (by omega), List.getElem?_drop]
    congr 1
    omega

/-- The two ways `Copy` returns a count: the zero-length early exit, or a `memmove`
of `c > 0` bytes after all five checks passed. -/
theorem Copy_ok_cases (source target : List Nat) (ts ss : Int) (se_arg : Option Int)
    (c : Nat) (hok : (Copy source target ts ss se_arg).1 = Except.ok c) :
    (se_arg.getD (source.length : Int) = ss ∧ c = 0 ∧
      (Copy source target ts ss se_arg).2 = target) ∨
    (ss < se_arg.getD (source.length : Int) ∧ 0 ≤ ts ∧ ts < (target.length : Int) ∧
      0 ≤ ss ∧ ss < (source.length : Int) ∧
      se_arg.getD (source.length : Int) ≤ (source.length : Int) ∧
      (c : Int) = min (min (se_arg.getD (source.length : Int) - ss)
        ((target.length : Int) - ts)) ((source.length : Int) - ss) ∧
      (Copy source target ts ss se_arg).2 = memmove target ts.toNat source ss.toNat c) := by
  rw [Copy_unfold] at hok ⊢
  simp only at hok ⊢
  by_cases h1 : se_arg.getD (source.length : Int) < ss
  · rw [if_pos h1] at hok
    cases hok
  rw [if_neg h1] at hok ⊢
  by_cases h2 : se_arg.getD (source.length : Int) = ss
  · rw [if_pos h2] at hok ⊢
    left
    simp only [Except.ok.injEq] at hok
    exact ⟨h2, hok.symm, rfl⟩
  rw [if_neg h2] at hok ⊢
  by_cases h3 : ts < 0 ∨ ts ≥ (target.length : Int)
  · rw [if_pos h3] at hok
    cases hok
  rw [if_neg h3] at hok ⊢
  by_cases h4 : ss < 0 ∨ ss ≥ (source.length : Int)
  · rw [if_pos h4] at hok
    cases hok
  rw [if_neg h4] at hok ⊢
  by_cases h5 : se_arg.getD (source.length : Int) < 0 ∨
      se_arg.getD (source.length : Int) > (source.length : Int)
  · rw [if_pos h5] at hok
    cases hok
  rw [if_neg h5] at hok ⊢
  right
  simp only [Except.ok.injEq] at hok
  have hc : (c : Int) = min (min (se_arg.getD (source.length : Int) - ss)
      ((target.length : Int) - ts)) ((source.length : Int) - ss) := by
    rw [← hok]
    apply Int.toNat_of_nonneg
    simp only [le_min_iff]
    omega
  refine ⟨by omega, by omega, by omega, by omega, by omega, by omega, hc, ?_⟩
  simp only
  rw [hok]

/-- Claim C8. Copy is overlap-safe: when source and target are the same buffer and
`Copy` returns `c`, (1) copying the source range into a disjoint scratch buffer of `c`
bytes and then copying the `c` scratch bytes to `targetStart` returns `c` and leaves
the buffer in the same state as the direct call; (2) the buffer keeps its length, for
each `i < c` the byte at `targetStart + i` is the byte that was at `sourceStart + i`
before the call, and every other byte is unchanged. -/
theorem C8_copy_overlap_safe (buf : List Nat) (ts ss : Int) (se_arg : Option Int) (c : Nat)
    (hok : (Copy buf buf ts ss se_arg).1 = Except.ok c) :
    (Copy buf (List.replicate c 0) 0 ss se_arg).1 = Except.ok c ∧
    Copy (Copy buf (List.replicate c 0) 0 ss se_arg).2 buf ts 0 (some (c : Int)) =
      (Except.ok c, (Copy buf buf ts ss se_arg).2) ∧
    ((Copy buf buf ts ss se_arg).2).length = buf.length ∧
    (∀ i, i < c → ∃ v, buf[ss.toNat + i]? = some v ∧
      ((Copy buf buf ts ss se_arg).2)[ts.toNat + i]? = some v) ∧
    (∀ j, j < ts.toNat ∨ ts.toNat + c ≤ j →
      ((Copy buf buf ts ss se_arg).2)[j]? = buf[j]?) := by
  rcases Copy_ok_cases buf buf ts ss se_arg c hok with
    ⟨hse, hc, hafter⟩ | ⟨hlt, hts0, hts, hss0, hss, hse, hc, hafter⟩
  · subst hc
    rw [hafter]
    have hs : Copy buf (List.replicate 0 0) 0 ss se_arg = (Except.ok 0, []) := by
      rw [Copy_unfold]
      simp [hse]
    rw [hs]
    refine ⟨rfl, ?_, rfl, ?_, ?_⟩
    · rw [Copy_unfold]
      simp
    · intro i hi
      omega
    · intro j _
      rfl
  · rw [hafter]
    obtain ⟨t, rfl⟩ := Int.eq_ofNat_of_zero_le hts0
    obtain ⟨s, rfl⟩ := Int.eq_ofNat_of_zero_le hss0
    rw [Int.toNat_ofNat, Int.toNat_ofNat]
    have hcpos : 0 < c := by
      have : (0 : Int) < (c : Int) := by
        rw [hc]
        simp only [lt_min_iff]
        omega
      omega
    have hc1 : c ≤ buf.length - s := by
      have : (c : Int) ≤ (buf.length : Int) - (s : Int) := by
        rw [hc]
        exact min_le_right _ _
      omega
    have hc2 : c ≤ buf.length - t := by
      have : (c : Int) ≤ (buf.length : Int) - (t : Int) := by
        rw [hc]
        exact le_trans (min_le_left _ _) (min_le_right _ _)
      omega
    have hc3 : (c : Int) ≤ se_arg.getD (buf.length : Int) - (s : Int) := by
      rw [hc]
      exact le_trans (min_le_left _ _) (min_le_left _ _)
    have hXlen : ((buf.drop s).take c).length = c := by
      simp only [List.length_take, List.length_drop]
      omega
    have hscratch : Copy buf (List.replicate c 0) 0 (s : Int) se_arg =
        (Except.ok c, (buf.drop s).take c) := by
      rw [Copy_unfold]
      simp only [List.length_replicate]
      rw [if_neg (by omega), if_neg (by omega), if_neg (by omega), if_neg (by omega),
        if_neg (by omega)]
      have hmin : min (min (se_arg.getD (buf.length : Int) - (s : Int)) ((c : Int) - 0))
          ((buf.length : Int) - (s : Int)) = (c : Int) := by
        clear hc hafter hok
        simp only [min_def]
        split_ifs <;> omega
      rw [hmin, Int.toNat_ofNat, Int.toNat_ofNat, Int.toNat_zero]
      unfold memmove store_bytes
      have hd : List.drop c (List.replicate c 0) = [] :=
        List.drop_eq_nil_of_le (by simp)
      rw [hXlen, List.take_zero, List.nil_append, Nat.zero_add, hd, List.append_nil]
    rw [hscratch]
    have hmm : memmove buf t buf s c = store_bytes buf t ((buf.drop s).take c) := rfl
    refine ⟨rfl, ?_, ?_, ?_, ?_⟩
    · rw [Copy_unfold]
      simp only [Option.getD_some, hXlen]
      rw [if_neg (by omega), if_neg (by omega), if_neg (by omega), if_neg (by omega),
        if_neg (by omega)]
      have hmin : min (min ((c : Int) - 0) ((buf.length : Int) - (t : Int)))
          ((c : Int) - 0) = (c : Int) := by
        clear hc hafter hok
        simp only [min_def]
        split_ifs <;> omega
      rw [hmin, Int.toNat_ofNat, Int.toNat_ofNat, Int.toNat_zero]
      unfold memmove
      rw [List.drop_zero, List.take_of_length_le (by omega)]
    · rw [hmm]
      exact store_bytes_length _ _ _ (by omega)
    · intro i hi
      rw [hmm, store_bytes_get_inside _ _ _ (by omega), if_pos (by omega)]
      refine ⟨buf[s + i], ?_, ?_⟩
      · exact List.getElem?_eq_getElem (by omega)
      · rw [List.getElem?_take_of_lt hi, List.getElem?_drop]
        exact List.getElem?_eq_getElem (by omega)
    · intro j hj
      rw [hmm]
      rcases hj with hj | hj
      · exact store_bytes_get_before _ _ _ (by omega) j hj
      · obtain ⟨k, rfl⟩ := Nat.exists_eq_add_of_le (Nat.le_of_add_right_le hj)
        rw [store_bytes_get_inside _ _ _ (by omega), if_neg (by omega)]

/-- Instance of `C8_copy_overlap_safe` (the vector of the specification): copying 5
bytes from offset 2 to offset 0 of a 10-byte buffer. -/
theorem C8_copy_overlap_safe_witness :
    (Copy [0,1,2,3,4,5,6,7,8,9] [0,1,2,3,4,5,6,7,8,9] 0 2 (some 7)).1 = Except.ok 5 ∧
    (Copy [0,1,2,3,4,5,6,7,8,9] [0,1,2,3,4,5,6,7,8,9] 0 2 (some 7)).2 =
      [2,3,4,5,6,5,6,7,8,9] ∧
    Copy (Copy [0,1,2,3,4,5,6,7,8,9] (List.replicate 5 0) 0 2 (some 7)).2
        [0,1,2,3,4,5,6,7,8,9] 0 0 (some ((5 : Nat) : Int)) =
      (Except.ok 5, (Copy [0,1,2,3,4,5,6,7,8,9] [0,1,2,3,4,5,6,7,8,9] 0 2 (some 7)).2) :=
  ⟨by decide, by decide,
    (C8_copy_overlap_safe [0,1,2,3,4,5,6,7,8,9] 0 2 (some 7) 5 (by decide)).2.1⟩

/-! ## Base64: tables and bit layout -/

/-- A character of `base64_table` is not `'='` and is an index of `unbase64_table`. -/
theorem base64_table_mem :
    ∀ c ∈ base64_table, c ≠ PAD ∧ (unbase64 c).isSome = true := by
  decide

/-- The bytes of `data[i .. end)` start with `data[i]`. -/
theorem drop_take_cons (data : List Nat) (e i : Nat) (hi : i < e) (he : e ≤ data.length) :
    (data.take e).drop i = data.getD i 0 :: (data.take e).drop (i + 1) := by
  have hlen : i < (data.take e).length := by
    simp only [List.length_take]; omega
  rw [List.drop_eq_getElem_cons hlen, List.getElem_take, List.getD_eq_getElem data 0 (by omega)]

/-- Past `end` no byte of `data[i .. end)` is left. -/
theorem drop_take_nil (data : List Nat) (e i : Nat) (hi : e ≤ i) :
    (data.take e).drop i = [] := by
  apply List.drop_eq_nil_of_le
  simp only [List.length_take]
  omega

/-- With at least `end - i` iterations allowed, the loop of `Buffer::Base64Slice`
started at index `i` appends to `out` the groups of the bytes `data[i .. end)`. In
particular the result does not depend on the bound. -/
theorem Base64Slice_loop_eq (data : List Nat) (e : Nat) (he : e ≤ data.length) :
    ∀ (fuel i : Nat) (out : List Nat), e - i ≤ fuel →
      Base64Slice_loop data e fuel i out = out ++ encode_groups ((data.take e).drop i) := by
  intro fuel
  induction fuel with
  | zero =>
    intro i out h
    rw [drop_take_nil data e i (by omega)]
    simp [Base64Slice_loop, encode_groups]
  | succ fuel ih =>
    intro i out h
    unfold Base64Slice_loop
    by_cases h0 : i < e
    · rw [if_pos h0, drop_take_cons data e i h0 he]
      simp only
      rw [ih _ _ (by omega)]
      by_cases h1 : i + 1 < e
      · rw [drop_take_cons data e (i + 1) h1 he]
        by_cases h2 : i + 1 + 1 < e
        · rw [drop_take_cons data e (i + 1 + 1) h2 he]
          simp [h1, h2, encode_groups]
        · rw [drop_take_nil data e (i + 1 + 1) (by omega),
            drop_take_nil data e (i + 1 + 1 + 1) (by omega)]
          simp [h1, h2, encode_groups]
      · rw [drop_take_nil data e (i + 1) (by omega),
          drop_take_nil data e (i + 1 + 1 + 1) (by omega)]
        have h2 : ¬ i + 1 + 1 < e := by omega
        simp [h1, h2, encode_groups]
    · rw [if_neg h0, drop_take_nil data e i (by omega)]
      simp [encode_groups]

/-- Any two bounds of at least `end - i` iterations give the same result: the bound
`end - start` used by `Base64Slice` never cuts the loop short. -/
theorem Base64Slice_loop_fuel (data : List Nat) (e : Nat) (he : e ≤ data.length)
    (fuel1 fuel2 i : Nat) (out : List Nat) (h1 : e - i ≤ fuel1) (h2 : e - i ≤ fuel2) :
    Base64Slice_loop data e fuel1 i out = Base64Slice_loop data e fuel2 i out := by
  rw [Base64Slice_loop_eq data e he fuel1 i out h1, Base64Slice_loop_eq data e he fuel2 i out h2]

/-- For a text of a multiple of 4 characters, made of characters other than `'='`
followed by `p ≤ 2` pad characters, `base64_decoded_size` is `3 * (length / 4) - p`. -/
theorem base64_decoded_size_padded (body : List Nat) (p : Nat)
    (hbody : ∀ c ∈ body, c ≠ PAD) (hp : p ≤ 2) (hlen : (body.length + p) % 4 = 0) :
    base64_decoded_size (body ++ List.replicate p PAD) (body.length + p) =
      (body.length + p) / 4 * 3 - p := by
  have hp3 : p = 0 ∨ p = 1 ∨ p = 2 := by omega
  rcases hp3 with rfl | rfl | rfl
  · simp only [List.replicate_zero, List.append_nil, Nat.add_zero]
    rw [base64_decoded_size_unpadded body _ (getD_ne_PAD body hbody _)
      (getD_ne_PAD body hbody _)]
    simp only [Nat.add_zero] at hlen
    simp [hlen]
  · have hb : 3 ≤ body.length := by omega
    have e1 : (body ++ List.replicate 1 PAD).getD (body.length + 1 - 1) 0 = PAD := by
      rw [Nat.add_sub_cancel, List.getD_append_right _ _ _ _ (le_refl _)]
      simp
    have e2 : (body ++ List.replicate 1 PAD).getD (body.length + 1 - 2) 0 ≠ PAD := by
      rw [List.getD_append _ _ _ _ (by omega)]
      exact getD_ne_PAD body hbody _
    unfold base64_decoded_size
    simp only [e1, e2, hlen, if_true, if_false, size_dec]
    split_ifs <;> omega
  · have hb : 2 ≤ body.length := by omega
    have e1 : (body ++ List.replicate 2 PAD).getD (body.length + 2 - 1) 0 = PAD := by
      rw [List.getD_append_right _ _ _ _ (by omega)]
      have : body.length + 2 - 1 - body.length = 1 := by omega
      rw [this]
      simp [List.replicate]
    have e2 : (body ++ List.replicate 2 PAD).getD (body.length + 2 - 2) 0 = PAD := by
      rw [Nat.add_sub_cancel, List.getD_append_right _ _ _ _ (le_refl _)]
      simp
    unfold base64_decoded_size
    simp only [e1, e2, hlen, if_true, if_false, size_dec]
    split_ifs <;> omega

/-- On characters that are neither `'='` nor outside `unbase64_table`, followed by
the end of the text or by a `'='`, the decoder loop consumes exactly these characters
and stores `stored_count` bytes. -/
theorem Base64Write_loop_count :
    ∀ (body tail : List Nat), (∀ c ∈ body, c ≠ PAD ∧ (unbase64 c).isSome = true) →
      (tail = [] ∨ ∃ t, tail = PAD :: t) →
      ∃ stored, Base64Write_loop (body ++ tail) = some (body.length, stored) ∧
        stored.length = stored_count body.length
  | [], tail, _, ht => by
    rcases ht with rfl | ⟨t, rfl⟩
    · exact ⟨[], by simp [Base64Write_loop], by simp [stored_count]⟩
    · exact ⟨[], by simp [Base64Write_loop], by simp [stored_count]⟩
  | [x0], tail, h, ht => by
    obtain ⟨n0, s0⟩ := h x0 (by simp)
    obtain ⟨a, ha⟩ := Option.isSome_iff_exists.mp s0
    rcases ht with rfl | ⟨t, rfl⟩
    · exact ⟨[], by simp [Base64Write_loop, n0, ha], by simp [stored_count]⟩
    · exact ⟨[], by simp [Base64Write_loop, n0, ha], by simp [stored_count]⟩
  | [x0, x1], tail, h, ht => by
    obtain ⟨n0, s0⟩ := h x0 (by simp)
    obtain ⟨n1, s1⟩ := h x1 (by simp)
    obtain ⟨a, ha⟩ := Option.isSome_iff_exists.mp s0
    obtain ⟨b, hb⟩ := Option.isSome_iff_exists.mp s1
    rcases ht with rfl | ⟨t, rfl⟩
    · exact ⟨_, by simp only [Base64Write_loop, List.cons_append, List.nil_append, if_neg n0,
        if_neg n1, ha, hb]; rfl, by simp [stored_count]⟩
    · exact ⟨_, by simp only [Base64Write_loop, List.cons_append, List.nil_append, if_neg n0,
        if_neg n1, ha, hb, if_true]; rfl, by simp [stored_count]⟩
  | [x0, x1, x2], tail, h, ht => by
    obtain ⟨n0, s0⟩ := h x0 (by simp)
    obtain ⟨n1, s1⟩ := h x1 (by simp)
    obtain ⟨n2, s2⟩ := h x2 (by simp)
    obtain ⟨a, ha⟩ := Option.isSome_iff_exists.mp s0
    obtain ⟨b, hb⟩ := Option.isSome_iff_exists.mp s1
    obtain ⟨c, hc⟩ := Option.isSome_iff_exists.mp s2
    rcases ht with rfl | ⟨t, rfl⟩
    · exact ⟨_, by simp only [Base64Write_loop, List.cons_append, List.nil_append, if_neg n0,
        if_neg n1, if_neg n2, ha, hb, hc]; rfl, by simp [stored_count]⟩
    · exact ⟨_, by simp only [Base64Write_loop, List.cons_append, List.nil_append, if_neg n0,
        if_neg n1, if_neg n2, ha, hb, hc, if_true]; rfl, by simp [stored_count]⟩
  | x0 :: x1 :: x2 :: x3 :: rest, tail, h, ht => by
    obtain ⟨n0, s0⟩ := h x0 (by simp)
    obtain ⟨n1, s1⟩ := h x1 (by simp)
    obtain ⟨n2, s2⟩ := h x2 (by simp)
    obtain ⟨n3, s3⟩ := h x3 (by simp)
    obtain ⟨a, ha⟩ := Option.isSome_iff_exists.mp s0
    obtain ⟨b, hb⟩ := Option.isSome_iff_exists.mp s1
    obtain ⟨c, hc⟩ := Option.isSome_iff_exists.mp s2
    obtain ⟨d, hd⟩ := Option.isSome_iff_exists.mp s3
    obtain ⟨stored, hs, hl⟩ := Base64Write_loop_count rest tail
      (fun c hc => h c (by simp [hc])) ht
    refine ⟨((a <<< 2) ||| ((b &&& 0x30) >>> 4)) % 256 ::
      (((b &&& 0x0F) <<< 4) ||| ((c &&& 0x3C) >>> 2)) % 256 ::
      (((c &&& 0x03) <<< 6) ||| (d &&& 0x3F)) % 256 :: stored, ?_, ?_⟩
    · simp only [List.cons_append]
      rw [Base64Write_loop]
      simp only [if_neg n0, if_neg n1, if_neg n2, if_neg n3, ha, hb, hc, hd, hs,
        List.length_cons]
    · simp only [List.length_cons, hl, stored_count]
      have e1 : (rest.length + 1 + 1 + 1 + 1) / 4 = rest.length / 4 + 1 := by omega
      have e2 : (rest.length + 1 + 1 + 1 + 1) % 4 = rest.length % 4 := by omega
      simp only [e1, e2]
      omega

/-- Claim C3. For every well-formed Base64 string (a multiple of 4 characters,
all of them from the 64-symbol alphabet except that the last one or the last two may
be `'='`), the decoder loop of `Base64Write` runs to its end and
`base64_decoded_size` equals the number of bytes the loop stores. -/
theorem C3_decoded_size_wellformed (body : List Nat) (p : Nat)
    (hbody : ∀ c ∈ body, c ∈ base64_table) (hp : p ≤ 2)
    (hlen : (body.length + p) % 4 = 0) :
    ∃ k stored, Base64Write_loop (body ++ List.replicate p PAD) = some (k, stored) ∧
      base64_decoded_size (body ++ List.replicate p PAD)
        (body ++ List.replicate p PAD).length = stored.length := by
  have htail : List.replicate p PAD = [] ∨ ∃ t, List.replicate p PAD = PAD :: t := by
    cases p with
    | zero => exact Or.inl rfl
    | succ q => exact Or.inr ⟨List.replicate q PAD, rfl⟩
  obtain ⟨stored, hs, hl⟩ := Base64Write_loop_count body (List.replicate p PAD)
    (fun c hc => base64_table_mem c (hbody c hc)) htail
  refine ⟨body.length, stored, hs, ?_⟩
  have hL : (body ++ List.replicate p PAD).length = body.length + p := by simp
  rw [hL, base64_decoded_size_padded body p (fun c hc => (base64_table_mem c (hbody c hc)).1)
    hp hlen, hl]
  unfold stored_count
  split_ifs <;> omega

/-- Instance of `C3_decoded_size_wellformed`: the string "QQ==". -/
theorem C3_decoded_size_wellformed_witness :
    ∃ k stored, Base64Write_loop (chars "QQ" ++ List.replicate 2 PAD) = some (k, stored) ∧
      base64_decoded_size (chars "QQ" ++ List.replicate 2 PAD)
        (chars "QQ" ++ List.replicate 2 PAD).length = stored.length :=
  C3_decoded_size_wellformed (chars "QQ") 2 (by decide) (by decide) (by decide)

/-- Claim C2, evaluated at an input on which it fails. For the text "AAAA=="
`base64_decoded_size` is 2, so `Base64Write` at offset 0 of a 2-byte buffer passes
the size check; the decoder loop then consumes "AAAA" and stores 3 bytes, the third
one at index 2, outside the buffer. -/
theorem C2_base64_write_overrun :
    base64_decoded_size (chars "AAAA==") (chars "AAAA==").length = 2 ∧
    Base64Write_loop (chars "AAAA==") = some (4, [0, 0, 0]) ∧
    Base64Write [7, 7] (chars "AAAA==") 0 none = Base64WriteOutcome.overrun 2 [0, 0, 0] := by
  decide

/-! ## Claims on the tables, the size estimate and the return value of `Base64Write` -/

set_option maxRecDepth 100000 in
/-- Claim C18. The inverse lookup table is the exact inverse of the alphabet on 7-bit
characters: `unbase64_table` has 128 entries; for every `i` in 0..63,
`unbase64_table[base64_table[i]] = i`; and for every character code `c` in 0..127
that is not one of the 64 alphabet characters (`'='` is not one of them),
`unbase64_table[c] = -1`. -/
theorem C18_unbase64_table_inverse :
    unbase64_table.length = 128 ∧ base64_table.length = 64 ∧ PAD ∉ base64_table ∧
    (∀ i, i < 64 → unbase64_table.get? (base64_table.getD i 0) = some (i : Int)) ∧
    (∀ c, c < 128 → c ∉ base64_table → unbase64_table.get? c = some (-1)) := by
  refine ⟨by decide, by decide, by decide, by decide, by decide⟩

/-- Claim C20, evaluated at an input on which it fails. For the two-character string
"==" the size before the padding check is 1; both trailing characters are `'='`, so
`size--` runs twice and the `size_t` wraps to `2^64 - 1`, far above
`floor(2/4)*3 + 2 = 2`. -/
theorem C20_decoded_size_wraps :
    base64_decoded_size (chars "==") (chars "==").length = 18446744073709551615 ∧
    ¬ (base64_decoded_size (chars "==") (chars "==").length ≤
        (chars "==").length / 4 * 3 + 2) := by
  decide

/-- Apart from the two-character string "==", the decoded-size estimate never wraps
and is at most `floor(size/4)*3 + 2`. -/
theorem base64_decoded_size_bound (src : List Nat) (size : Nat)
    (h : ¬ (size = 2 ∧ src.getD 0 0 = PAD ∧ src.getD 1 0 = PAD)) :
    base64_decoded_size src size ≤ size / 4 * 3 + 2 := by
  unfold base64_decoded_size
  simp only
  have hb : (if size % 4 ≠ 0 then
        if size / 4 * 3 = 0 ∧ size % 4 = 1 then 0
        else size / 4 * 3 + (1 + (if size % 4 = 3 then 1 else 0))
      else size / 4 * 3) ≤ size / 4 * 3 + 2 := by
    split_ifs <;> omega
  have h1 : size ≠ 2 → (if size % 4 ≠ 0 then
        if size / 4 * 3 = 0 ∧ size % 4 = 1 then 0
        else size / 4 * 3 + (1 + (if size % 4 = 3 then 1 else 0))
      else size / 4 * 3) ≠ 1 := by
    intro hs
    split_ifs <;> omega
  generalize (if size % 4 ≠ 0 then
        if size / 4 * 3 = 0 ∧ size % 4 = 1 then 0
        else size / 4 * 3 + (1 + (if size % 4 = 3 then 1 else 0))
      else size / 4 * 3) = s2 at hb h1 ⊢
  by_cases hs : size = 2
  · subst hs
    have e1 : src.getD (2 - 1) 0 = src.getD 1 0 := rfl
    have e0 : src.getD (2 - 2) 0 = src.getD 0 0 := rfl
    rw [e1, e0]
    by_cases p1 : src.getD 1 0 = PAD
    · have p0 : src.getD 0 0 ≠ PAD := fun p0 => h ⟨rfl, p0, p1⟩
      rw [if_pos p1, if_neg p0]
      unfold size_dec
      split_ifs <;> omega
    · rw [if_neg p1]
      unfold size_dec
      split_ifs <;> omega
  · have h2 := h1 hs
    unfold size_dec
    split_ifs <;> omega

/-- Claim C12, evaluated at an input on which it fails. `Base64Write` of "Zm9v"
(decoded size 3) at offset 0 of a 3-byte buffer with `maxLength = 1`: the effective
cap is `min(3, 1) = 1 < 3`, yet the call does not throw; it stores 3 bytes and
returns 3, exactly as without the third argument. -/
theorem C12_max_length_ignored :
    base64_decoded_size (chars "Zm9v") (chars "Zm9v").length = 3 ∧
    Base64Write [0, 0, 0] (chars "Zm9v") 0 (some 1) =
      Base64WriteOutcome.returned 3 (chars "foo") (chars "foo") ∧
    Base64Write [0, 0, 0] (chars "Zm9v") 0 (some 1) =
      Base64Write [0, 0, 0] (chars "Zm9v") 0 none := by
  decide

/-- Claim C14, as the code has it. Whenever `Base64Write` returns on a buffer of
non-zero length, the value returned is `base64_decoded_size(text)`; on a zero-length
buffer at offset 0 it returns 0 whatever the text; and there is a text ("AA=A", with
an early stop at `'='`) and a 2-byte buffer for which the write returns 2, stores a
single byte, and leaves the second byte of the buffer with its prior content. -/
theorem C14_base64_write_reports_prediction :
    (∀ (data s : List Nat) (offset_arg : Int) (max_length : Option Int)
        (size : Nat) (stored after : List Nat),
      data.length ≠ 0 →
      Base64Write data s offset_arg max_length =
        Base64WriteOutcome.returned size stored after →
      size = base64_decoded_size s s.length) ∧
    (∀ (s : List Nat) (max_length : Option Int),
      Base64Write [] s 0 max_length = Base64WriteOutcome.returned 0 [] []) ∧
    (∃ (data s : List Nat) (size : Nat) (stored after : List Nat),
      Base64Write data s 0 none = Base64WriteOutcome.returned size stored after ∧
      size = base64_decoded_size s s.length ∧ stored.length < size ∧
      after.take stored.length = stored ∧
      after.drop stored.length = data.drop stored.length ∧
      data.drop stored.length ≠ []) := by
  refine ⟨?_, ?_, ?_⟩
  · intro data s offset_arg max_length size stored after hlen h
    unfold Base64Write at h
    simp only at h
    rw [if_neg (by omega)] at h
    split_ifs at h with h1 h2
    split at h
    · cases h
    · split_ifs at h with h3
      simp only [Base64WriteOutcome.returned.injEq] at h
      exact h.1.symm
  · intro s max_length
    rfl
  · exact ⟨[7, 7], chars "AA=A", 2, [0], [0, 7], by decide, by decide, by decide, by decide,
      by decide, by decide⟩

/-- Instance of the first part of `C14_base64_write_reports_prediction`: "Zm9v"
written into a 3-byte buffer returns the decoded size 3. -/
theorem C14_base64_write_reports_prediction_witness :
    (3 : Nat) = base64_decoded_size (chars "Zm9v") (chars "Zm9v").length :=
  C14_base64_write_reports_prediction.1 [0, 0, 0] (chars "Zm9v") 0 none 3 (chars "foo")
    (chars "foo") (by decide) (by decide)

/-- Claim C14 as stated fails: on a zero-length buffer `Base64Write` of "AAAA" at
offset 0 returns 0, while `base64_decoded_size` of "AAAA" is 3. -/
theorem C14_counterexample :
    ¬ (∀ (data s : List Nat) (offset_arg : Int) (max_length : Option Int)
        (size : Nat) (stored after : List Nat),
      Base64Write data s offset_arg max_length =
        Base64WriteOutcome.returned size stored after →
      size = base64_decoded_size s s.length) := by
  intro h
  have h0 := h [] (chars "AAAA") 0 none 0 [] [] (by decide)
  revert h0
  decide

/-- Claim C15, as the code has it. For every call on which `Copy` returns a count
`c > 0`: `0 ≤ sourceStart`, `sourceStart + c ≤ source.length`, `0 ≤ targetStart` and
`targetStart + c ≤ target.length`, so the move reads inside the source and writes
inside the target. A call that returns `c = 0` moves no byte: the target is
unchanged (no bound on `sourceStart` or `targetStart` holds then). -/
theorem C15_copy_in_bounds (source target : List Nat) (ts ss : Int) (se_arg : Option Int)
    (c : Nat) (hok : (Copy source target ts ss se_arg).1 = Except.ok c) :
    (0 < c → 0 ≤ ss ∧ ss + (c : Int) ≤ (source.length : Int) ∧
      0 ≤ ts ∧ ts + (c : Int) ≤ (target.length : Int)) ∧
    (c = 0 → (Copy source target ts ss se_arg).2 = target) := by
  rcases Copy_ok_cases source target ts ss se_arg c hok with
    ⟨_, hc, hafter⟩ | ⟨hlt, hts0, hts, hss0, hss, hse, hc, _⟩
  · exact ⟨fun h => by omega, fun _ => hafter⟩
  · have h1 : (c : Int) ≤ (source.length : Int) - ss := by
      rw [hc]
      exact min_le_right _ _
    have h2 : (c : Int) ≤ (target.length : Int) - ts := by
      rw [hc]
      exact le_trans (min_le_left _ _) (min_le_right _ _)
    have h3 : (0 : Int) < (c : Int) := by
      rw [hc]
      simp only [lt_min_iff]
      omega
    exact ⟨fun _ => ⟨hss0, by omega, hts0, by omega⟩, fun h => by omega⟩

/-- Instance of `C15_copy_in_bounds`: 5 bytes requested from offset 2 of a 10-byte
source into a 4-byte target at offset 1 copies 3 bytes, inside both buffers. -/
theorem C15_copy_in_bounds_witness :
    (Copy [0,1,2,3,4,5,6,7,8,9] [0,0,0,0] 1 2 (some 7)).1 = Except.ok 3 ∧
    ((0 : Int) ≤ 2 ∧ (2 : Int) + ((3 : Nat) : Int) ≤ (([0,1,2,3,4,5,6,7,8,9] : List Nat).length : Int) ∧
      (0 : Int) ≤ 1 ∧ (1 : Int) + ((3 : Nat) : Int) ≤ (([0,0,0,0] : List Nat).length : Int)) :=
  ⟨by decide,
    (C15_copy_in_bounds [0,1,2,3,4,5,6,7,8,9] [0,0,0,0] 1 2 (some 7) 3 (by decide)).1
      (by decide)⟩

/-- Claim C15 as stated fails: with `sourceStart = sourceEnd = 7` on a 3-byte source,
`Copy` returns 0 although `sourceStart + 0 > source.length` (and `targetStart = 9`
is beyond the 2-byte target). -/
theorem C15_counterexample :
    ¬ (∀ (source target : List Nat) (ts ss : Int) (se_arg : Option Int) (c : Nat),
      (Copy source target ts ss se_arg).1 = Except.ok c →
      ss + (c : Int) ≤ (source.length : Int) ∧ ts + (c : Int) ≤ (target.length : Int)) := by
  intro h
  have h0 := h [1, 2, 3] [4, 5] 9 7 (some 7) 0 (by decide)
  revert h0
  decide

/-! ## The decoder loop: early stop -/

/-- Every 7-bit character code is an index of `unbase64_table`. -/
theorem unbase64_isSome : ∀ c, c < 128 → (unbase64 c).isSome = true := by
  decide

/-- What follows the characters before the first `'='` is either nothing or starts
with `'='`. -/
theorem dropWhile_ne_PAD (text : List Nat) :
    text.dropWhile (fun c => decide (c ≠ PAD)) = [] ∨
      ∃ t, text.dropWhile (fun c => decide (c ≠ PAD)) = PAD :: t := by
  induction text with
  | nil => exact Or.inl rfl
  | cons x xs ih =>
    by_cases hx : x = PAD
    · right
      exact ⟨xs, by simp [List.dropWhile, hx]⟩
    · simpa [List.dropWhile, hx] using ih

/-- The characters before the first `'='` are not `'='`. -/
theorem takeWhile_ne_PAD (text : List Nat) :
    ∀ c ∈ text.takeWhile (fun c => decide (c ≠ PAD)), c ≠ PAD := by
  intro c hc
  simpa using List.mem_takeWhile_imp hc

/-- The decoder loop stops at the first `'='` exactly as at the end of the text:
whatever follows the `'='` is never read. -/
theorem Base64Write_loop_stop :
    ∀ (body tail : List Nat), (∀ c ∈ body, c ≠ PAD) →
      (tail = [] ∨ ∃ t, tail = PAD :: t) →
      Base64Write_loop (body ++ tail) = Base64Write_loop body
  | [], tail, _, ht => by
    rcases ht with rfl | ⟨t, rfl⟩
    · rfl
    · simp [Base64Write_loop]
  | [x0], tail, h, ht => by
    have n0 := h x0 (by simp)
    rcases ht with rfl | ⟨t, rfl⟩
    · rfl
    · cases ha : unbase64 x0 <;> simp [Base64Write_loop, n0, ha]
  | [x0, x1], tail, h, ht => by
    have n0 := h x0 (by simp)
    have n1 := h x1 (by simp)
    rcases ht with rfl | ⟨t, rfl⟩
    · rfl
    · cases ha : unbase64 x0 <;> cases hb : unbase64 x1 <;>
        simp [Base64Write_loop, n0, n1, ha, hb]
  | [x0, x1, x2], tail, h, ht => by
    have n0 := h x0 (by simp)
    have n1 := h x1 (by simp)
    have n2 := h x2 (by simp)
    rcases ht with rfl | ⟨t, rfl⟩
    · rfl
    · cases ha : unbase64 x0 <;> cases hb : unbase64 x1 <;> cases hc : unbase64 x2 <;>
        simp [Base64Write_loop, n0, n1, n2, ha, hb, hc]
  | x0 :: x1 :: x2 :: x3 :: rest, tail, h, ht => by
    have n0 := h x0 (by simp)
    have n1 := h x1 (by simp)
    have n2 := h x2 (by simp)
    have n3 := h x3 (by simp)
    have ih := Base64Write_loop_stop rest tail (fun c hc => h c (by simp [hc])) ht
    simp only [List.cons_append]
    rw [Base64Write_loop, Base64Write_loop]
    simp only [ih]

/-- When the decoder loop returns a result, every character before the first `'='`
was an index of `unbase64_table`. -/
theorem Base64Write_loop_some :
    ∀ (body : List Nat), (∀ c ∈ body, c ≠ PAD) →
      ∀ r, Base64Write_loop body = some r → ∀ c ∈ body, (unbase64 c).isSome = true
  | [], _, _, _ => by simp
  | [x0], h, r, hr => by
    have n0 := h x0 (by simp)
    cases ha : unbase64 x0 with
    | none => simp [Base64Write_loop, n0, ha] at hr
    | some a => simp [ha]
  | [x0, x1], h, r, hr => by
    have n0 := h x0 (by simp)
    have n1 := h x1 (by simp)
    cases ha : unbase64 x0 with
    | none => simp [Base64Write_loop, n0, ha] at hr
    | some a =>
      cases hb : unbase64 x1 with
      | none => simp [Base64Write_loop, n0, n1, ha, hb] at hr
      | some b => simp [ha, hb]
  | [x0, x1, x2], h, r, hr => by
    have n0 := h x0 (by simp)
    have n1 := h x1 (by simp)
    have n2 := h x2 (by simp)
    cases ha : unbase64 x0 with
    | none => simp [Base64Write_loop, n0, ha] at hr
    | some a =>
      cases hb : unbase64 x1 with
      | none => simp [Base64Write_loop, n0, n1, ha, hb] at hr
      | some b =>
        cases hc : unbase64 x2 with
        | none => simp [Base64Write_loop, n0, n1, n2, ha, hb, hc] at hr
        | some c => simp [ha, hb, hc]
  | x0 :: x1 :: x2 :: x3 :: rest, h, r, hr => by
    have n0 := h x0 (by simp)
    have n1 := h x1 (by simp)
    have n2 := h x2 (by simp)
    have n3 := h x3 (by simp)
    rw [Base64Write_loop] at hr
    simp only [if_neg n0, if_neg n1, if_neg n2, if_neg n3] at hr
    cases ha : unbase64 x0 with
    | none => simp [ha] at hr
    | some a =>
      cases hb : unbase64 x1 with
      | none => simp [ha, hb] at hr
      | some b =>
        cases hc : unbase64 x2 with
        | none => simp [ha, hb, hc] at hr
        | some c =>
          cases hd : unbase64 x3 with
          | none => simp [ha, hb, hc, hd] at hr
          | some d =>
            cases hl : Base64Write_loop rest with
            | none => simp [ha, hb, hc, hd, hl] at hr
            | some r2 =>
              have ih := Base64Write_loop_some rest (fun c hc => h c (by simp [hc])) r2 hl
              intro c hcm
              simp only [List.mem_cons] at hcm
              rcases hcm with rfl | rfl | rfl | rfl | hcm
              · simp [ha]
              · simp [hb]
              · simp [hc]
              · simp [hd]
              · exact ih c hcm

/-- Claim C16. Decode early stop and emitted count. For every source text, with `k`
the index of its first `'='` (`k` is the length of the text if there is none):
(1) when the `k` characters before the first `'='` are 7-bit characters (indices of
`unbase64_table`), the decoder loop of `Base64Write` runs to its exit, consumes
exactly these `k` characters and stores exactly `3 * floor(k/4) + e` bytes, where
`e = 1` if `k mod 4 = 2`, `e = 2` if `k mod 4 = 3` and `e = 0` otherwise; (2) whenever
the loop has a result at all, it has consumed exactly `k` characters and stored
exactly that many bytes; (3) the result is the same for every text with the same
characters before its first `'='`: what follows the `'='` has no influence. -/
theorem C16_decode_early_stop (text : List Nat) :
    ((∀ c ∈ text.takeWhile (fun c => decide (c ≠ PAD)), c < 128) →
      ∃ stored,
        Base64Write_loop text =
          some ((text.takeWhile (fun c => decide (c ≠ PAD))).length, stored) ∧
        stored.length =
          3 * ((text.takeWhile (fun c => decide (c ≠ PAD))).length / 4) +
            (if (text.takeWhile (fun c => decide (c ≠ PAD))).length % 4 = 2 then 1
             else if (text.takeWhile (fun c => decide (c ≠ PAD))).length % 4 = 3 then 2
             else 0)) ∧
    (∀ (consumed : Nat) (stored : List Nat),
      Base64Write_loop text = some (consumed, stored) →
      consumed = (text.takeWhile (fun c => decide (c ≠ PAD))).length ∧
      stored.length =
        3 * ((text.takeWhile (fun c => decide (c ≠ PAD))).length / 4) +
          (if (text.takeWhile (fun c => decide (c ≠ PAD))).length % 4 = 2 then 1
           else if (text.takeWhile (fun c => decide (c ≠ PAD))).length % 4 = 3 then 2
           else 0)) ∧
    (∀ other : List Nat,
      other.takeWhile (fun c => decide (c ≠ PAD)) =
        text.takeWhile (fun c => decide (c ≠ PAD)) →
      Base64Write_loop other = Base64Write_loop text) := by
  have hsplit := List.takeWhile_append_dropWhile (fun c => decide (c ≠ PAD)) text
  have hstop := Base64Write_loop_stop (text.takeWhile (fun c => decide (c ≠ PAD)))
    (text.dropWhile (fun c => decide (c ≠ PAD))) (takeWhile_ne_PAD text)
    (dropWhile_ne_PAD text)
  rw [hsplit] at hstop
  have hcount : (∀ c ∈ text.takeWhile (fun c => decide (c ≠ PAD)),
      (unbase64 c).isSome = true) →
      ∃ stored,
        Base64Write_loop text =
          some ((text.takeWhile (fun c => decide (c ≠ PAD))).length, stored) ∧
        stored.length = stored_count (text.takeWhile (fun c => decide (c ≠ PAD))).length := by
    intro hsome
    obtain ⟨stored, hs, hl⟩ := Base64Write_loop_count
      (text.takeWhile (fun c => decide (c ≠ PAD)))
      (text.dropWhile (fun c => decide (c ≠ PAD)))
      (fun c hc => ⟨takeWhile_ne_PAD text c hc, hsome c hc⟩)
      (dropWhile_ne_PAD text)
    rw [hsplit] at hs
    exact ⟨stored, hs, hl⟩
  refine ⟨?_, ?_, ?_⟩
  · intro h7
    exact hcount (fun c hc => unbase64_isSome c (h7 c hc))
  · intro consumed stored hr
    have hsome := Base64Write_loop_some (text.takeWhile (fun c => decide (c ≠ PAD)))
      (takeWhile_ne_PAD text) (consumed, stored) (by rw [← hstop]; exact hr)
    obtain ⟨stored2, hs, hl⟩ := hcount hsome
    rw [hr] at hs
    simp only [Option.some.injEq, Prod.mk.injEq] at hs
    obtain ⟨h1, h2⟩ := hs
    subst h2
    exact ⟨h1, hl⟩
  · intro other ho
    have h1 := Base64Write_loop_stop (other.takeWhile (fun c => decide (c ≠ PAD)))
      (other.dropWhile (fun c => decide (c ≠ PAD))) (takeWhile_ne_PAD other)
      (dropWhile_ne_PAD other)
    rw [List.takeWhile_append_dropWhile] at h1
    rw [h1, hstop, ho]

/-- Instance of `C16_decode_early_stop`: in "Zm9vYg==xyz" the first `'='` is at index
6; the loop consumes 6 characters and stores `3 * 1 + 1 = 4` bytes. -/
theorem C16_decode_early_stop_witness :
    ∃ stored,
      Base64Write_loop (chars "Zm9vYg==xyz") =
        some (((chars "Zm9vYg==xyz").takeWhile (fun c => decide (c ≠ PAD))).length, stored) ∧
      stored.length =
        3 * (((chars "Zm9vYg==xyz").takeWhile (fun c => decide (c ≠ PAD))).length / 4) +
          (if ((chars "Zm9vYg==xyz").takeWhile (fun c => decide (c ≠ PAD))).length % 4 = 2
            then 1
           else if
            ((chars "Zm9vYg==xyz").takeWhile (fun c => decide (c ≠ PAD))).length % 4 = 3
            then 2
           else 0) :=
  (C16_decode_early_stop (chars "Zm9vYg==xyz")).1 (by decide)

/-! ## The encoder: bit layout -/

/-- Storing nothing leaves the buffer as it is. -/
theorem store_bytes_nil (data : List Nat) (offset : Nat) : store_bytes data offset [] = data := by
  unfold store_bytes
  simp

/-- Subtracting a `size_t` from itself gives 0. -/
theorem size_sub_self (a : Nat) : size_sub a a = 0 := by
  unfold size_sub
  simp

/-- Claim C13, as the code has it, leaving aside an empty text at
`offset > buffer.length` for the three codec writes. `offset` is the `size_t` the
source computes from its second argument. For `Utf8Write`, `AsciiWrite` and
`BinaryWrite`, every buffer, and every offset and text other than an empty text at
`offset > buffer.length`, the write is rejected with the offset-out-of-bounds error
exactly when `offset > buffer.length`, or `offset == buffer.length` and the text is
non-empty; an empty text at `offset == buffer.length` is accepted and reports 0 (the
codec, given room for 0 bytes, stores nothing and returns 0). For `Base64Write`,
every buffer, offset and text, the write is rejected with that error exactly when
`offset > buffer.length`, or `offset == buffer.length` and the buffer is non-empty; at
offset 0 of a zero-length buffer it reports 0 for every text. -/
theorem C13_write_offset_validation (codec : V8String → Nat → Nat × List Nat)
    (data : List Nat) (s : V8String) (text : List Nat) (offset : Nat) (offset_arg : Int)
    (max_length : Option Nat) (max_length_int : Option Int) :
    (¬ (s.utf8.length = 0 ∧ offset > data.length) →
      (Utf8Write codec data s offset max_length =
          WriteOutcome.threw "Offset is out of bounds" ↔
        offset > data.length ∨ (offset = data.length ∧ s.utf8.length > 0))) ∧
    (¬ (s.length = 0 ∧ to_size_t offset_arg > data.length) →
      (AsciiWrite codec data s offset_arg max_length =
          WriteOutcome.threw "Offset is out of bounds" ↔
        to_size_t offset_arg > data.length ∨
          (to_size_t offset_arg = data.length ∧ s.length > 0))) ∧
    (¬ (s.length = 0 ∧ to_size_t offset_arg > data.length) →
      (BinaryWrite codec data s offset_arg =
          WriteOutcome.threw "Offset is out of bounds" ↔
        to_size_t offset_arg > data.length ∨
          (to_size_t offset_arg = data.length ∧ s.length > 0))) ∧
    (Base64Write data text offset_arg max_length_int =
        Base64WriteOutcome.threw "Offset is out of bounds" ↔
      to_size_t offset_arg > data.length ∨
        (to_size_t offset_arg = data.length ∧ data.length > 0)) ∧
    (codec s 0 = (0, []) → s.utf8.length = 0 →
      Utf8Write codec data s data.length max_length = WriteOutcome.returned 0 data) ∧
    (codec s 0 = (0, []) → s.length = 0 → to_size_t offset_arg = data.length →
      AsciiWrite codec data s offset_arg max_length = WriteOutcome.returned 0 data ∧
      BinaryWrite codec data s offset_arg = WriteOutcome.returned 0 data) ∧
    Base64Write [] text 0 max_length_int = Base64WriteOutcome.returned 0 [] [] := by
  refine ⟨?_, ?_, ?_, ?_, ?_, ?_, rfl⟩
  · intro hex
    unfold Utf8Write
    by_cases h : s.utf8.length > 0 ∧ offset ≥ data.length
    · rw [if_pos h]
      exact ⟨fun _ => by omega, fun _ => rfl⟩
    · rw [if_neg h]
      refine ⟨fun hh => ?_, fun hh => absurd (by omega) h⟩
      simp only at hh
      split_ifs at hh
  · intro hex
    unfold AsciiWrite
    simp only
    by_cases h : s.length > 0 ∧ to_size_t offset_arg ≥ data.length
    · rw [if_pos h]
      exact ⟨fun _ => by omega, fun _ => rfl⟩
    · rw [if_neg h]
      refine ⟨fun hh => ?_, fun hh => absurd (by omega) h⟩
      split_ifs at hh
  · intro hex
    unfold BinaryWrite
    simp only
    by_cases h : s.length > 0 ∧ to_size_t offset_arg ≥ data.length
    · rw [if_pos h]
      exact ⟨fun _ => by omega, fun _ => rfl⟩
    · rw [if_neg h]
      refine ⟨fun hh => ?_, fun hh => absurd (by omega) h⟩
      split_ifs at hh
  · unfold Base64Write
    simp only
    by_cases h0 : to_size_t offset_arg = 0 ∧ data.length = 0
    · rw [if_pos h0]
      refine ⟨fun hh => ?_, fun hh => by omega⟩
      cases hh
    · rw [if_neg h0]
      by_cases h1 : to_size_t offset_arg ≥ data.length
      · rw [if_pos h1]
        exact ⟨fun _ => by omega, fun _ => rfl⟩
      · rw [if_neg h1]
        refine ⟨fun hh => ?_, fun hh => by omega⟩
        exfalso
        split_ifs at hh with h2
        · simp only [Base64WriteOutcome.threw.injEq] at hh
          revert hh
          decide
        · split at hh
          · cases hh
          · split_ifs at hh
  · intro hc he
    unfold Utf8Write
    rw [if_neg (by omega)]
    simp only [size_sub_self, Nat.zero_min, hc, List.length_nil, Nat.add_zero, le_refl,
      if_true, store_bytes_nil]
    simp
  · intro hc he ho
    unfold AsciiWrite BinaryWrite
    simp only [ho, he, size_sub_self, Nat.zero_min, Nat.min_zero, hc, List.length_nil,
      Nat.add_zero, le_refl, if_true, store_bytes_nil]
    constructor
    · rw [if_neg (by omega)]
    · rw [if_neg (by omega)]

/-- Instance of `C13_write_offset_validation` with a codec that stores nothing: on
a 2-byte buffer a non-empty text at offset 2 is rejected by `Utf8Write`, an empty
text at offset 2 is rejected by `Base64Write`, and an empty text at offset 2 is
accepted by `Utf8Write` and reports 0. -/
theorem C13_write_offset_validation_witness :
    Utf8Write (fun _ _ => (0, [])) [7, 7] ⟨[65], 1⟩ 2 none =
        WriteOutcome.threw "Offset is out of bounds" ∧
    Base64Write [7, 7] [] 2 none = Base64WriteOutcome.threw "Offset is out of bounds" ∧
    Utf8Write (fun _ _ => (0, [])) [7, 7] ⟨[], 0⟩ ([7, 7] : List Nat).length none =
        WriteOutcome.returned 0 [7, 7] :=
  ⟨((C13_write_offset_validation (fun _ _ => (0, [])) [7, 7] ⟨[65], 1⟩ [] 2 2
      none none).1 (by decide)).2 (by decide),
   (C13_write_offset_validation (fun _ _ => (0, [])) [7, 7] ⟨[65], 1⟩ [] 2 2
      none none).2.2.2.1.2 (by decide),
   (C13_write_offset_validation (fun _ _ => (0, [])) [7, 7] ⟨[], 0⟩ [] 2 2
      none none).2.2.2.2.1 rfl rfl⟩

/-- Claim C13 as stated fails. For `Base64Write`, an empty text at
`offset == buffer.length` on a 1-byte buffer is rejected with the
offset-out-of-bounds error, although the offset is not above the length and the text
is empty. For `Utf8Write`, an empty text at offset 3 of a 2-byte buffer is not
rejected although the offset is above the length: the call goes on to the codec with
a pointer beyond the buffer, and a codec that stores the terminating NUL of the empty
text stores it outside the buffer. -/
theorem C13_counterexample :
    ¬ (∀ (data text : List Nat) (offset_arg : Int) (max_length_int : Option Int),
      Base64Write data text offset_arg max_length_int =
          Base64WriteOutcome.threw "Offset is out of bounds" ↔
        (to_size_t offset_arg > data.length ∨
          (to_size_t offset_arg = data.length ∧ text ≠ []))) ∧
    Utf8Write (fun _ capacity => if capacity = 0 then (0, []) else (1, [0])) [7, 7]
        ⟨[], 0⟩ 3 none = WriteOutcome.overrun := by
  constructor
  · intro h
    have h0 := (h [0] [] 1 none).1 (by decide)
    revert h0
    decide
  · decide

end node
